import Mathlib

/-
Verification development for the flip-game backend.

Shallow embedding of the backend sources:
  - backend/config.js                  (configuration constants)
  - backend/engine/flipEngine.js       (outcome function, round state machine, bet ledger)
  - backend/engine/seeds.js            (provably-fair seed chain)
  - backend/services/betService.js     (bet coordination with platform debit/rollback)
  - backend/services/callbackService.js (platform callbacks with retry)
  - backend/services/sessionService.js (session directory with expiry)
  - backend/ws/gameNamespace.js        (phase snapshot for late joiners)

JavaScript numbers that carry money or probabilities are modelled as exact
rationals (ℚ); `Math.floor` is the rational floor, `Math.round x` is
`⌊x + 1/2⌋`.  JavaScript `Map`s are modelled as insertion-ordered association
lists.  The HMAC-SHA256 and SHA-256 primitives from node's crypto library are
abstract function parameters: every theorem quantifies over them, so nothing
depends on a particular hash.
-/

namespace FlipGame

/-! ## Configuration constants (backend/config.js) -/

def MIN_BET : ℚ := 1

def MAX_BET : ℚ := 100000000000

def PAYOUT_MULTIPLIER : ℚ := 1.95

def EDGE_MULTIPLIER : ℚ := 10.0

def PROBABILITY_HEADS : ℚ := 48.65

def PROBABILITY_TAILS : ℚ := 48.65

def PROBABILITY_EDGE : ℚ := 2.7

def RETRY_ATTEMPTS : Nat := 3

def RETRY_DELAY_MS : Nat := 1000

def SESSION_EXPIRY_MS : Nat := 24 * 60 * 60 * 1000

/-! ## Outcome function (flipEngine.calculateFlipResult)

`hm` stands for `hmacSha256Buffer`; `hm key message` is the first byte of the
HMAC-SHA256 digest of `message` under `key` (source reads `hash[0]`). -/

def calculateFlipResult (hm : String → String → Nat)
    (serverSeed clientSeed : String) (nonce : Nat) : String :=
  let message := clientSeed ++ ":" ++ toString nonce
  let firstByte := hm serverSeed message
  let percentage : ℚ := ((firstByte : ℚ) / 255) * 100
  if percentage < PROBABILITY_HEADS then "HEADS"
  else if percentage < PROBABILITY_HEADS + PROBABILITY_TAILS then "TAILS"
  else "EDGE"

/-! ## Spec reference for the outcome function (refinement target)

Modelled from the spec: the outcome is selected by iterating the probability
table in its declared order, choosing the first label whose cumulative
half-open interval contains the scaled percentage, with the last interval
closed at 100 (so the final label is returned when no earlier interval
matched). -/

def specProbabilityTable : List (String × ℚ) :=
  [("HEADS", PROBABILITY_HEADS), ("TAILS", PROBABILITY_TAILS), ("EDGE", PROBABILITY_EDGE)]

def selectFromTable (p : ℚ) : ℚ → List (String × ℚ) → String
  | _, [] => "EDGE"
  | _, [(label, _)] => label
  | cum, (label, w) :: rest =>
    if p < cum + w then label else selectFromTable p (cum + w) rest

def specComputeOutcome (hm : String → String → Nat)
    (serverSeed clientSeed : String) (nonce : Nat) : String :=
  let message := clientSeed ++ ":" ++ toString nonce
  let b := hm serverSeed message
  let p : ℚ := ((b : ℚ) / 255) * 100
  selectFromTable p 0 specProbabilityTable

/-- C1: `calculateFlipResult` equals the spec's cumulative-interval reference
definition for every hash primitive, server seed, client seed and nonce; with
the configured table, a first hash byte of 100 yields HEADS, 124 yields HEADS,
250 yields EDGE; and repeated calls with identical inputs yield identical
outcomes. -/
theorem C1_calculateFlipResult_matches_reference :
    (∀ hm serverSeed clientSeed nonce,
        calculateFlipResult hm serverSeed clientSeed nonce =
          specComputeOutcome hm serverSeed clientSeed nonce)
  ∧ (∀ serverSeed clientSeed nonce,
        calculateFlipResult (fun _ _ => 100) serverSeed clientSeed nonce = "HEADS")
  ∧ (∀ serverSeed clientSeed nonce,
        calculateFlipResult (fun _ _ => 124) serverSeed clientSeed nonce = "HEADS")
  ∧ (∀ serverSeed clientSeed nonce,
        calculateFlipResult (fun _ _ => 250) serverSeed clientSeed nonce = "EDGE")
  ∧ (∀ hm serverSeed clientSeed nonce,
        calculateFlipResult hm serverSeed clientSeed nonce =
          calculateFlipResult hm serverSeed clientSeed nonce) := by
  refine ⟨?_, ?_, ?_, ?_, fun _ _ _ _ => rfl⟩
  · intro hm serverSeed clientSeed nonce
    simp only [calculateFlipResult, specComputeOutcome, specProbabilityTable, selectFromTable,
      zero_add]
  · intro serverSeed clientSeed nonce
    simp only [calculateFlipResult]
    norm_num [PROBABILITY_HEADS, PROBABILITY_TAILS]
  · intro serverSeed clientSeed nonce
    simp only [calculateFlipResult]
    norm_num [PROBABILITY_HEADS, PROBABILITY_TAILS]
  · intro serverSeed clientSeed nonce
    simp only [calculateFlipResult]
    norm_num [PROBABILITY_HEADS, PROBABILITY_TAILS]

/-! ## Seed chain (backend/engine/seeds.js)

`sha` stands for the SHA-256 hex digest primitive; `s0` is the fresh random
seed drawn by `generateRandomHex(32)` and `cs0` the freshly generated client
seed.  Both are parameters because the entropy source lives outside the
engine. -/

structure SeedManagerState where
  chainLength : Nat
  currentIndex : Nat
  seedChain : List String
  clientSeed : String
  initialHash : String
  nonce : Nat

def SeedManager.new : SeedManagerState :=
  { chainLength := 10000, currentIndex := 0, seedChain := [], clientSeed := "",
    initialHash := "", nonce := 0 }

def buildChainFrom (sha : String → String) (cur : String) : Nat → List String
  | 0 => []
  | n + 1 => sha cur :: buildChainFrom sha (sha cur) n

def SeedManager.initializeChain (sha : String → String) (s0 cs0 : String)
    (st : SeedManagerState) : SeedManagerState :=
  let chain := (s0 :: buildChainFrom sha s0 (st.chainLength - 1)).reverse
  { st with
    seedChain := chain
    initialHash := chain.headD ""
    clientSeed := cs0
    currentIndex := 0
    nonce := 0 }

def SeedManager.getCurrentServerSeed (sha : String → String) (s0 cs0 : String)
    (st : SeedManagerState) : String × SeedManagerState :=
  let st1 := if st.currentIndex ≥ st.seedChain.length
             then SeedManager.initializeChain sha s0 cs0 st else st
  (st1.seedChain.getD st1.currentIndex "", st1)

def SeedManager.advanceToNextSeed (sha : String → String) (s0 cs0 : String)
    (st : SeedManagerState) : SeedManagerState :=
  let st1 := { st with currentIndex := st.currentIndex + 1, nonce := st.nonce + 1 }
  if st1.currentIndex ≥ st1.seedChain.length
  then SeedManager.initializeChain sha s0 cs0 st1
  else st1

/-! ## Round data (flipEngine.generateRound / finishRound) -/

inductive RoundStatus
  | pending
  | betting
  | revealing
  | finished
deriving DecidableEq, Repr

structure Bet where
  playerId : String
  sessionId : String
  amount : ℚ
  choice : String
  placedAt : Nat
deriving DecidableEq, Repr

structure WinnerEntry where
  betAmount : ℚ
  winAmount : ℚ
  choice : String
deriving DecidableEq, Repr

structure LoserEntry where
  betAmount : ℚ
  choice : String
deriving DecidableEq, Repr

structure Round where
  id : String
  serverSeed : String
  serverSeedHash : String
  clientSeed : String
  nonce : Nat
  result : String
  startTime : Option Nat
  endTime : Option Nat
  status : RoundStatus
  bets : List (String × Bet)
  winners : List (String × WinnerEntry)
  losers : List (String × LoserEntry)
deriving DecidableEq, Repr

def FlipEngine.generateRound (hm : String → String → Nat) (sha : String → String)
    (s0 cs0 : String) (now : Nat) (seeds : SeedManagerState) :
    Round × SeedManagerState :=
  let p := SeedManager.getCurrentServerSeed sha s0 cs0 seeds
  let serverSeed := p.1
  let seeds1 := p.2
  let clientSeed := seeds1.clientSeed
  let nonce := seeds1.nonce
  let result := calculateFlipResult hm serverSeed clientSeed nonce
  ({ id := "F-" ++ toString now ++ "-" ++ toString nonce
     serverSeed := serverSeed
     serverSeedHash := sha serverSeed
     clientSeed := clientSeed
     nonce := nonce
     result := result
     startTime := none
     endTime := none
     status := RoundStatus.pending
     bets := []
     winners := []
     losers := [] }, seeds1)

structure HistoryEntry where
  id : String
  result : String
  serverSeed : String
  serverSeedHash : String
  clientSeed : String
  nonce : Nat
  startTime : Option Nat
  endTime : Option Nat
  winnersCount : Nat
  losersCount : Nat
deriving DecidableEq, Repr

def FlipEngine.finishRound (sha : String → String) (s0 cs0 : String) (now : Nat)
    (round : Round) (history : List HistoryEntry) (seeds : SeedManagerState) :
    Round × List HistoryEntry × SeedManagerState :=
  let finished := { round with status := RoundStatus.finished, endTime := some now }
  let entry : HistoryEntry :=
    { id := finished.id
      result := finished.result
      serverSeed := finished.serverSeed
      serverSeedHash := finished.serverSeedHash
      clientSeed := finished.clientSeed
      nonce := finished.nonce
      startTime := finished.startTime
      endTime := finished.endTime
      winnersCount := finished.winners.length
      losersCount := finished.losers.length }
  let history1 := entry :: history
  let history2 := if history1.length > 50 then history1.dropLast else history1
  (finished, history2, SeedManager.advanceToNextSeed sha s0 cs0 seeds)

/-! ## Hash-chain lemmas -/

lemma length_buildChainFrom (sha : String → String) (c : String) (n : Nat) :
    (buildChainFrom sha c n).length = n := by
  induction n generalizing c with
  | zero => rfl
  | succ n ih => simp [buildChainFrom, ih]

lemma getD_eq_getElem_of_lt {l : List String} {n : Nat} (h : n < l.length) (d : String) :
    l.getD n d = l[n] := by
  simp [List.getD_eq_getElem?_getD, List.getElem?_eq_getElem h]

lemma getD_reverse (l : List String) (i : Nat) (h : i < l.length) :
    l.reverse.getD i "" = l.getD (l.length - 1 - i) "" := by
  have h1 : i < l.reverse.length := by simpa using h
  have h2 : l.length - 1 - i < l.length := by omega
  rw [getD_eq_getElem_of_lt h1, getD_eq_getElem_of_lt h2]
  exact List.getElem_reverse h1

lemma fwd_chain_step (sha : String → String) :
    ∀ (n j : Nat) (s0 : String), j + 1 ≤ n →
      (s0 :: buildChainFrom sha s0 n).getD (j + 1) "" =
        sha ((s0 :: buildChainFrom sha s0 n).getD j "") := by
  intro n
  induction n with
  | zero => intro j s0 h; omega
  | succ n ih =>
    intro j s0 h
    match j with
    | 0 => simp [buildChainFrom]
    | j + 1 =>
      have h2 : j + 1 ≤ n := by omega
      have := ih j (sha s0) h2
      simpa [buildChainFrom] using this

lemma initialize_seedChain_length (sha : String → String) (s0 cs0 : String)
    (st : SeedManagerState) :
    (SeedManager.initializeChain sha s0 cs0 st).seedChain.length = (st.chainLength - 1) + 1 := by
  simp [SeedManager.initializeChain, length_buildChainFrom]

lemma initialize_seedChain_step (sha : String → String) (s0 cs0 : String)
    (st : SeedManagerState) (i : Nat)
    (h : i + 1 < (SeedManager.initializeChain sha s0 cs0 st).seedChain.length) :
    sha ((SeedManager.initializeChain sha s0 cs0 st).seedChain.getD (i + 1) "") =
      (SeedManager.initializeChain sha s0 cs0 st).seedChain.getD i "" := by
  have hlen := initialize_seedChain_length sha s0 cs0 st
  set m := st.chainLength - 1 with hm
  have hchain : (SeedManager.initializeChain sha s0 cs0 st).seedChain =
      (s0 :: buildChainFrom sha s0 m).reverse := rfl
  rw [hchain] at h ⊢
  set fw := s0 :: buildChainFrom sha s0 m with hfw
  have hfwlen : fw.length = m + 1 := by
    simp [hfw, length_buildChainFrom]
  have hrevlen : fw.reverse.length = m + 1 := by simp [hfwlen]
  have hi : i + 1 < m + 1 := by omega
  rw [getD_reverse fw (i + 1) (by omega), getD_reverse fw i (by omega)]
  have e1 : fw.length - 1 - (i + 1) = m - i - 1 := by omega
  have e0 : fw.length - 1 - i = m - i := by omega
  rw [e1, e0]
  have hstep := fwd_chain_step sha m (m - i - 1) s0 (by omega)
  have hj : m - i - 1 + 1 = m - i := by omega
  rw [hj] at hstep
  exact hstep.symm

lemma headD_eq_getD_zero (l : List String) : l.headD "" = l.getD 0 "" := by
  cases l <;> rfl

lemma initialize_initialHash (sha : String → String) (s0 cs0 : String)
    (st : SeedManagerState) :
    (SeedManager.initializeChain sha s0 cs0 st).initialHash =
      (SeedManager.initializeChain sha s0 cs0 st).seedChain.headD "" := rfl

lemma mem_of_mem_ite_dropLast {e : HistoryEntry} {l : List HistoryEntry}
    (c : Prop) [Decidable c] (h : e ∈ (if c then l.dropLast else l)) : e ∈ l := by
  by_cases hc : c
  · rw [if_pos hc] at h
    exact List.dropLast_subset _ h
  · rw [if_neg hc] at h
    exact h

/-- C2: the initialized seed chain of length 10000 satisfies
`sha (chain[i+1]) = chain[i]` for every `i < 9999`; the published commitment is
`chain[0]`; the seed used for round `k ≥ 1` hashes to the previously used
element `chain[k-1]`; each generated round commits `serverSeedHash =
sha serverSeed`; and `finishRound` archives only entries satisfying
`sha entry.serverSeed = entry.serverSeedHash` when given such a round and
history. -/
theorem C2_seed_chain_commitments :
    ∀ (sha : String → String) (s0 cs0 : String),
      ((SeedManager.initializeChain sha s0 cs0 SeedManager.new).seedChain.length = 10000)
    ∧ (∀ i : Nat, i + 1 < 10000 →
        sha ((SeedManager.initializeChain sha s0 cs0 SeedManager.new).seedChain.getD (i + 1) "") =
          (SeedManager.initializeChain sha s0 cs0 SeedManager.new).seedChain.getD i "")
    ∧ ((SeedManager.initializeChain sha s0 cs0 SeedManager.new).initialHash =
        (SeedManager.initializeChain sha s0 cs0 SeedManager.new).seedChain.getD 0 "")
    ∧ (∀ k : Nat, 1 ≤ k → k < 10000 →
        sha ((SeedManager.initializeChain sha s0 cs0 SeedManager.new).seedChain.getD k "") =
          (SeedManager.initializeChain sha s0 cs0 SeedManager.new).seedChain.getD (k - 1) "")
    ∧ (∀ (hm : String → String → Nat) (now : Nat) (seeds : SeedManagerState),
        sha (FlipEngine.generateRound hm sha s0 cs0 now seeds).1.serverSeed =
          (FlipEngine.generateRound hm sha s0 cs0 now seeds).1.serverSeedHash)
    ∧ (∀ (now2 : Nat) (round : Round) (history : List HistoryEntry)
        (seeds : SeedManagerState),
        sha round.serverSeed = round.serverSeedHash →
        (∀ e ∈ history, sha e.serverSeed = e.serverSeedHash) →
        ∀ e ∈ (FlipEngine.finishRound sha s0 cs0 now2 round history seeds).2.1,
          sha e.serverSeed = e.serverSeedHash) := by
  intro sha s0 cs0
  have hlen : (SeedManager.initializeChain sha s0 cs0 SeedManager.new).seedChain.length = 10000 := by
    rw [initialize_seedChain_length]
    rfl
  refine ⟨hlen, ?_, ?_, ?_, ?_, ?_⟩
  · intro i hi
    exact initialize_seedChain_step sha s0 cs0 SeedManager.new i (by omega)
  · rw [initialize_initialHash, headD_eq_getD_zero]
  · intro k hk1 hk2
    have hstep := initialize_seedChain_step sha s0 cs0 SeedManager.new (k - 1) (by omega)
    have hkk : k - 1 + 1 = k := by omega
    rw [hkk] at hstep
    exact hstep
  · intro hm now seeds
    rfl
  · intro now2 round history seeds hround hhist e he
    have he2 := mem_of_mem_ite_dropLast _ he
    rcases List.mem_cons.mp he2 with h | h
    · subst h
      exact hround
    · exact hhist e h

def witnessSha (s : String) : String := s ++ "x"

def witnessRound : Round :=
  { id := "F-1-0", serverSeed := "a", serverSeedHash := witnessSha "a", clientSeed := "c",
    nonce := 0, result := "HEADS", startTime := none, endTime := none,
    status := RoundStatus.betting, bets := [], winners := [], losers := [] }

/-- Witness for C2: concrete hash function, seeds and indices. -/
theorem C2_seed_chain_commitments_witness :
    (0 + 1 < 10000)
  ∧ (witnessSha
       ((SeedManager.initializeChain witnessSha "a" "c" SeedManager.new).seedChain.getD (0 + 1) "") =
      (SeedManager.initializeChain witnessSha "a" "c" SeedManager.new).seedChain.getD 0 "")
  ∧ (witnessSha witnessRound.serverSeed = witnessRound.serverSeedHash)
  ∧ (∀ e ∈ (FlipEngine.finishRound witnessSha "a" "c" 5 witnessRound [] SeedManager.new).2.1,
        witnessSha e.serverSeed = e.serverSeedHash) := by
  refine ⟨by decide, ?_, rfl, ?_⟩
  · exact (C2_seed_chain_commitments witnessSha "a" "c").2.1 0 (by decide)
  · exact (C2_seed_chain_commitments witnessSha "a" "c").2.2.2.2.2 5 witnessRound []
      SeedManager.new rfl (by simp)

/-! ## Bet ledger (flipEngine.addBet)

The engine's mutable `currentRound` is passed explicitly; a thrown error is
modelled as an `Except.error` together with the unchanged state (the source
performs no mutation before any of its throw points). -/

inductive BetError
  | noActiveRound
  | bettingClosed
  | invalidChoice
  | duplicateBet
deriving DecidableEq, Repr

def FlipEngine.addBet (cur : Option Round) (playerId : String) (amount : ℚ)
    (choice : String) (sessionId : String) (now : Nat) :
    Option Round × Except BetError Bet :=
  match cur with
  | none => (none, Except.error BetError.noActiveRound)
  | some round =>
    if round.status ≠ RoundStatus.betting then
      (some round, Except.error BetError.bettingClosed)
    else if choice ≠ "HEADS" ∧ choice ≠ "TAILS" ∧ choice ≠ "EDGE" then
      (some round, Except.error BetError.invalidChoice)
    else if (round.bets.lookup playerId).isSome then
      (some round, Except.error BetError.duplicateBet)
    else
      let bet : Bet := { playerId := playerId, sessionId := sessionId, amount := amount,
                         choice := choice, placedAt := now }
      (some { round with bets := round.bets ++ [(playerId, bet)] }, Except.ok bet)

lemma addBet_ok_inv {round : Round} {eng2 : Option Round} {p : String} {a : ℚ}
    {c s : String} {t : Nat} {bet : Bet}
    (h : FlipEngine.addBet (some round) p a c s t = (eng2, Except.ok bet)) :
    round.status = RoundStatus.betting
    ∧ (c = "HEADS" ∨ c = "TAILS" ∨ c = "EDGE")
    ∧ round.bets.lookup p = none
    ∧ bet = { playerId := p, sessionId := s, amount := a, choice := c, placedAt := t }
    ∧ eng2 = some { round with bets := round.bets ++ [(p, bet)] } := by
  by_cases h1 : round.status ≠ RoundStatus.betting
  · simp [FlipEngine.addBet, h1] at h
  · by_cases h2 : c ≠ "HEADS" ∧ c ≠ "TAILS" ∧ c ≠ "EDGE"
    · simp [FlipEngine.addBet, h1, h2] at h
    · by_cases h3 : (round.bets.lookup p).isSome
      · simp [FlipEngine.addBet, h1, h2, h3] at h
      · simp only [FlipEngine.addBet, if_neg h1, if_neg h2, if_neg h3] at h
        simp only [Prod.mk.injEq, Except.ok.injEq] at h
        obtain ⟨hr, hb⟩ := h
        have hst : round.status = RoundStatus.betting := by
          by_contra hne
          exact h1 hne
        have hch : c = "HEADS" ∨ c = "TAILS" ∨ c = "EDGE" := by
          by_contra hne
          push_neg at hne
          exact h2 ⟨hne.1, hne.2.1, hne.2.2⟩
        have hnone : round.bets.lookup p = none :=
          Option.not_isSome_iff_eq_none.mp h3
        refine ⟨hst, hch, hnone, hb.symm, ?_⟩
        rw [← hr, hb]

/-- C4: `addBet` succeeds only while the round status is exactly betting,
rejecting with the four errors of the claim in the source's order; on every
rejection the state (and so the bet ledger) is unchanged; a success appends
exactly one ledger entry for the player, preserving at-most-one-entry-per-
player; and a second `addBet` for the same player in the same round always
fails. -/
theorem C4_addBet_gating :
    (∀ (p : String) (a : ℚ) (c s : String) (t : Nat),
        FlipEngine.addBet none p a c s t = (none, Except.error BetError.noActiveRound))
  ∧ (∀ (round : Round) (p : String) (a : ℚ) (c s : String) (t : Nat),
        round.status ≠ RoundStatus.betting →
        FlipEngine.addBet (some round) p a c s t =
          (some round, Except.error BetError.bettingClosed))
  ∧ (∀ (round : Round) (p : String) (a : ℚ) (c s : String) (t : Nat),
        round.status = RoundStatus.betting →
        (c ≠ "HEADS" ∧ c ≠ "TAILS" ∧ c ≠ "EDGE") →
        FlipEngine.addBet (some round) p a c s t =
          (some round, Except.error BetError.invalidChoice))
  ∧ (∀ (round : Round) (p : String) (a : ℚ) (c s : String) (t : Nat),
        round.status = RoundStatus.betting →
        (c = "HEADS" ∨ c = "TAILS" ∨ c = "EDGE") →
        (round.bets.lookup p).isSome →
        FlipEngine.addBet (some round) p a c s t =
          (some round, Except.error BetError.duplicateBet))
  ∧ (∀ (cur : Option Round) (p : String) (a : ℚ) (c s : String) (t : Nat) (e : BetError),
        (FlipEngine.addBet cur p a c s t).2 = Except.error e →
        (FlipEngine.addBet cur p a c s t).1 = cur)
  ∧ (∀ (round r2 : Round) (p : String) (a : ℚ) (c s : String) (t : Nat) (bet : Bet),
        FlipEngine.addBet (some round) p a c s t = (some r2, Except.ok bet) →
        r2.bets = round.bets ++ [(p, bet)] ∧ round.bets.lookup p = none
          ∧ ((round.bets.map Prod.fst).Nodup → (r2.bets.map Prod.fst).Nodup))
  ∧ (∀ (round r2 : Round) (p : String) (a : ℚ) (c s : String) (t : Nat) (bet : Bet),
        FlipEngine.addBet (some round) p a c s t = (some r2, Except.ok bet) →
        ∀ (a2 : ℚ) (c2 s2 : String) (t2 : Nat), ∃ e : BetError,
          (FlipEngine.addBet (some r2) p a2 c2 s2 t2).2 = Except.error e) := by
  refine ⟨fun p a c s t => rfl, ?_, ?_, ?_, ?_, ?_, ?_⟩
  · intro round p a c s t h
    simp only [FlipEngine.addBet, if_pos h]
  · intro round p a c s t hst hc
    simp only [FlipEngine.addBet]
    rw [if_neg (by simp [hst]), if_pos hc]
  · intro round p a c s t hst hc hdup
    simp only [FlipEngine.addBet]
    have hc2 : ¬(c ≠ "HEADS" ∧ c ≠ "TAILS" ∧ c ≠ "EDGE") := by
      rcases hc with h | h | h <;> simp [h]
    rw [if_neg (by simp [hst]), if_neg hc2, if_pos hdup]
  · intro cur p a c s t e h
    match cur with
    | none => rfl
    | some round =>
      by_cases h1 : round.status ≠ RoundStatus.betting
      · simp [FlipEngine.addBet, h1]
      · by_cases h2 : c ≠ "HEADS" ∧ c ≠ "TAILS" ∧ c ≠ "EDGE"
        · simp [FlipEngine.addBet, h1, h2]
        · by_cases h3 : (round.bets.lookup p).isSome
          · simp [FlipEngine.addBet, h1, h2, h3]
          · exfalso
            simp [FlipEngine.addBet, h1, h2, h3] at h
  · intro round r2 p a c s t bet h
    obtain ⟨hst, hch, hnone, hbet, hsome⟩ := addBet_ok_inv h
    have hr2 := Option.some.inj hsome
    have hmem : p ∉ round.bets.map Prod.fst := by
      intro hmem
      obtain ⟨q, hq, hq1⟩ := List.mem_map.mp hmem
      have := List.lookup_eq_none_iff.mp hnone q hq
      simp [hq1] at this
    refine ⟨by rw [hr2], hnone, ?_⟩
    intro hnd
    rw [hr2]
    simp only [List.map_append, List.map_cons, List.map_nil]
    rw [List.nodup_append]
    exact ⟨hnd, List.nodup_singleton _, by simpa using hmem⟩
  · intro round r2 p a c s t bet h a2 c2 s2 t2
    obtain ⟨hst, hch, hnone, hbet, hsome⟩ := addBet_ok_inv h
    have hr2 := Option.some.inj hsome
    by_cases k2 : c2 ≠ "HEADS" ∧ c2 ≠ "TAILS" ∧ c2 ≠ "EDGE"
    · refine ⟨BetError.invalidChoice, ?_⟩
      have hst2 : r2.status = RoundStatus.betting := by rw [hr2]; exact hst
      have hne : ¬(r2.status ≠ RoundStatus.betting) := by simp [hst2]
      simp only [FlipEngine.addBet, if_neg hne, if_pos k2]
    · refine ⟨BetError.duplicateBet, ?_⟩
      have hst2 : r2.status = RoundStatus.betting := by rw [hr2]; exact hst
      have hne : ¬(r2.status ≠ RoundStatus.betting) := by simp [hst2]
      have hdup : (r2.bets.lookup p).isSome := by
        rw [hr2]
        simp only [List.lookup_append]
        rw [hnone]
        simp [List.lookup_cons_self]
      simp only [FlipEngine.addBet, if_neg hne, if_neg k2, if_pos hdup]

/-- Witness for C4: concrete rounds exercising each hypothesis. -/
theorem C4_addBet_gating_witness :
    (witnessRound.status = RoundStatus.betting)
  ∧ ((witnessRound.bets.map Prod.fst).Nodup)
  ∧ (∀ r2 bet, FlipEngine.addBet (some witnessRound) "p1" 10 "HEADS" "s1" 7 =
        (some r2, Except.ok bet) →
      ∃ e : BetError, (FlipEngine.addBet (some r2) "p1" 5 "TAILS" "s1" 8).2 =
        Except.error e) := by
  refine ⟨rfl, by simp [witnessRound], ?_⟩
  intro r2 bet h
  exact (C4_addBet_gating.2.2.2.2.2.2 witnessRound r2 "p1" 10 "HEADS" "s1" 7 bet h)
    5 "TAILS" "s1" 8

/-! ## Winner/loser computation (flipEngine.calculateResults) -/

def calculateResultsStep (result : String) (acc : Round) (pb : String × Bet) : Round :=
  if pb.2.choice = result then
    let multiplier : ℚ := if result = "EDGE" then EDGE_MULTIPLIER else PAYOUT_MULTIPLIER
    let winAmount : ℚ := ((⌊pb.2.amount * multiplier * 100⌋ : ℤ) : ℚ) / 100
    { acc with winners := acc.winners ++
        [(pb.1, { betAmount := pb.2.amount, winAmount := winAmount, choice := pb.2.choice })] }
  else
    { acc with losers := acc.losers ++
        [(pb.1, { betAmount := pb.2.amount, choice := pb.2.choice })] }

def FlipEngine.calculateResults (round : Round) : Round :=
  round.bets.foldl (calculateResultsStep round.result) round

def winnerEntryOf (result : String) (pb : String × Bet) : Option (String × WinnerEntry) :=
  if pb.2.choice = result then
    some (pb.1,
      { betAmount := pb.2.amount
        winAmount := ((⌊pb.2.amount *
            (if result = "EDGE" then EDGE_MULTIPLIER else PAYOUT_MULTIPLIER) * 100⌋ : ℤ) : ℚ)
          / 100
        choice := pb.2.choice })
  else none

def loserEntryOf (result : String) (pb : String × Bet) : Option (String × LoserEntry) :=
  if pb.2.choice = result then none
  else some (pb.1, { betAmount := pb.2.amount, choice := pb.2.choice })

lemma foldl_calculateResultsStep_winners (result : String) :
    ∀ (bets : List (String × Bet)) (acc : Round),
      (bets.foldl (calculateResultsStep result) acc).winners =
        acc.winners ++ bets.filterMap (winnerEntryOf result) := by
  intro bets
  induction bets with
  | nil => intro acc; simp
  | cons pb rest ih =>
    intro acc
    rw [List.foldl_cons, ih]
    by_cases hc : pb.2.choice = result
    · simp [calculateResultsStep, winnerEntryOf, hc, List.append_assoc]
    · simp [calculateResultsStep, winnerEntryOf, hc]

lemma foldl_calculateResultsStep_losers (result : String) :
    ∀ (bets : List (String × Bet)) (acc : Round),
      (bets.foldl (calculateResultsStep result) acc).losers =
        acc.losers ++ bets.filterMap (loserEntryOf result) := by
  intro bets
  induction bets with
  | nil => intro acc; simp
  | cons pb rest ih =>
    intro acc
    rw [List.foldl_cons, ih]
    by_cases hc : pb.2.choice = result
    · simp [calculateResultsStep, loserEntryOf, hc]
    · simp [calculateResultsStep, loserEntryOf, hc, List.append_assoc]

def scenarioRound : Round :=
  { id := "F-2-1", serverSeed := "ss", serverSeedHash := "hh", clientSeed := "cc",
    nonce := 1, result := "HEADS", startTime := some 3, endTime := none,
    status := RoundStatus.revealing,
    bets := [("p1", { playerId := "p1", sessionId := "s1", amount := 10,
                      choice := "HEADS", placedAt := 2 })],
    winners := [], losers := [] }

/-- C5: `calculateResults` partitions the ledger: a bet wins iff its choice
equals the round result; each winner's payout is
`floor(betAmount * multiplier * 100) / 100` with multiplier 10.0 for EDGE and
1.95 otherwise, the multiplier depending only on the outcome label; a 10.00
bet on the winning non-EDGE choice settles 19.50. -/
theorem C5_calculateResults_partition :
    (∀ (round : Round), round.winners = [] → round.losers = [] →
      (∀ (p : String) (b : Bet), (p, b) ∈ round.bets →
        (b.choice = round.result →
          (p, { betAmount := b.amount
                winAmount := ((⌊b.amount *
                    (if round.result = "EDGE" then EDGE_MULTIPLIER else PAYOUT_MULTIPLIER)
                    * 100⌋ : ℤ) : ℚ) / 100
                choice := b.choice }) ∈ (FlipEngine.calculateResults round).winners)
        ∧ (b.choice ≠ round.result →
          (p, { betAmount := b.amount, choice := b.choice })
            ∈ (FlipEngine.calculateResults round).losers))
      ∧ (∀ (p : String) (e : WinnerEntry), (p, e) ∈ (FlipEngine.calculateResults round).winners →
          ∃ b : Bet, (p, b) ∈ round.bets ∧ b.choice = round.result
            ∧ e.betAmount = b.amount
            ∧ e.winAmount = ((⌊b.amount *
                (if round.result = "EDGE" then EDGE_MULTIPLIER else PAYOUT_MULTIPLIER)
                * 100⌋ : ℤ) : ℚ) / 100)
      ∧ (∀ (p : String) (e : LoserEntry), (p, e) ∈ (FlipEngine.calculateResults round).losers →
          ∃ b : Bet, (p, b) ∈ round.bets ∧ b.choice ≠ round.result
            ∧ e.betAmount = b.amount))
  ∧ ((FlipEngine.calculateResults scenarioRound).winners =
      [("p1", { betAmount := 10, winAmount := 19.5, choice := "HEADS" })]) := by
  constructor
  · intro round hw hl
    refine ⟨?_, ?_, ?_⟩
    · intro p b hmem
      constructor
      · intro hc
        rw [FlipEngine.calculateResults, foldl_calculateResultsStep_winners, hw,
          List.nil_append]
        apply List.mem_filterMap.mpr
        exact ⟨(p, b), hmem, by simp [winnerEntryOf, hc]⟩
      · intro hc
        rw [FlipEngine.calculateResults, foldl_calculateResultsStep_losers, hl,
          List.nil_append]
        apply List.mem_filterMap.mpr
        exact ⟨(p, b), hmem, by simp [loserEntryOf, hc]⟩
    · intro p e hmem
      rw [FlipEngine.calculateResults, foldl_calculateResultsStep_winners, hw,
        List.nil_append] at hmem
      obtain ⟨⟨q1, q2⟩, hpb, hentry⟩ := List.mem_filterMap.mp hmem
      by_cases hc : q2.choice = round.result
      · simp only [winnerEntryOf, if_pos hc, Option.some.injEq, Prod.mk.injEq] at hentry
        obtain ⟨hp, he⟩ := hentry
        subst hp
        refine ⟨q2, hpb, hc, ?_, ?_⟩
        · rw [← he]
        · rw [← he]
      · simp [winnerEntryOf, if_neg hc] at hentry
    · intro p e hmem
      rw [FlipEngine.calculateResults, foldl_calculateResultsStep_losers, hl,
        List.nil_append] at hmem
      obtain ⟨⟨q1, q2⟩, hpb, hentry⟩ := List.mem_filterMap.mp hmem
      by_cases hc : q2.choice = round.result
      · simp [loserEntryOf, if_pos hc] at hentry
      · simp only [loserEntryOf, if_neg hc, Option.some.injEq, Prod.mk.injEq] at hentry
        obtain ⟨hp, he⟩ := hentry
        subst hp
        refine ⟨q2, hpb, hc, ?_⟩
        rw [← he]
  · rw [FlipEngine.calculateResults, foldl_calculateResultsStep_winners]
    show [] ++ _ = _
    rw [List.nil_append]
    simp only [scenarioRound, List.filterMap_cons, winnerEntryOf]
    norm_num [PAYOUT_MULTIPLIER]
    rw [if_neg (by decide)]
    norm_num

/-- Witness for C5: the concrete scenario round discharges the empty
winner/loser-ledger hypotheses. -/
theorem C5_calculateResults_partition_witness :
    (scenarioRound.winners = []) ∧ (scenarioRound.losers = [])
  ∧ (∀ (p : String) (e : WinnerEntry),
      (p, e) ∈ (FlipEngine.calculateResults scenarioRound).winners →
      ∃ b : Bet, (p, b) ∈ scenarioRound.bets ∧ b.choice = scenarioRound.result
        ∧ e.betAmount = b.amount
        ∧ e.winAmount = ((⌊b.amount *
            (if scenarioRound.result = "EDGE" then EDGE_MULTIPLIER else PAYOUT_MULTIPLIER)
            * 100⌋ : ℤ) : ℚ) / 100) :=
  ⟨rfl, rfl, ((C5_calculateResults_partition.1 scenarioRound rfl rfl).2.1)⟩

/-! ## Public round view (flipEngine.getCurrentRound) and phase snapshot
(gameNamespace.sendCurrentState) -/

structure RoundView where
  id : String
  status : RoundStatus
  result : Option String
  serverSeedHash : String
  clientSeed : String
  nonce : Nat
  betsCount : Nat
  startTime : Option Nat
deriving DecidableEq, Repr

def FlipEngine.getCurrentRound (cur : Option Round) : Option RoundView :=
  match cur with
  | none => none
  | some round =>
    some { id := round.id
           status := round.status
           result :=
             if round.status = RoundStatus.revealing ∨ round.status = RoundStatus.finished
             then some round.result else none
           serverSeedHash := round.serverSeedHash
           clientSeed := round.clientSeed
           nonce := round.nonce
           betsCount := round.bets.length
           startTime := round.startTime }

inductive GameStateMsg
  | waiting (message : String)
  | bettingPhase (roundId serverSeedHash clientSeed : String) (nonce : Nat)
  | roundRevealing (roundId serverSeedHash : String) (result : Option String)
  | roundFinished (roundId : String) (result : Option String)
deriving DecidableEq, Repr

def sendCurrentState (cur : Option Round) : GameStateMsg :=
  match FlipEngine.getCurrentRound cur with
  | none => GameStateMsg.waiting "Waiting for next round..."
  | some round =>
    match round.status with
    | RoundStatus.betting =>
      GameStateMsg.bettingPhase round.id round.serverSeedHash round.clientSeed round.nonce
    | RoundStatus.revealing =>
      GameStateMsg.roundRevealing round.id round.serverSeedHash round.result
    | RoundStatus.finished =>
      GameStateMsg.roundFinished round.id round.result
    | RoundStatus.pending => GameStateMsg.waiting "Waiting for next round..."

/-- C6: the computed outcome is concealed before reveal: `getCurrentRound`
reports `result = none` while the status is pending or betting (and the stored
result only once revealing or finished); the snapshot sent to a late joiner in
the betting phase carries id, committed hash, client seed and nonce (the
status is the message constructor) and has no result field; and everything a
client sees before reveal is independent of the computed outcome. -/
theorem C6_result_concealed_before_reveal :
    (∀ (round : Round) (v : RoundView),
        round.status = RoundStatus.pending ∨ round.status = RoundStatus.betting →
        FlipEngine.getCurrentRound (some round) = some v →
        v.result = none)
  ∧ (∀ (round : Round) (v : RoundView),
        round.status = RoundStatus.revealing ∨ round.status = RoundStatus.finished →
        FlipEngine.getCurrentRound (some round) = some v →
        v.result = some round.result)
  ∧ (∀ (round : Round),
        round.status = RoundStatus.betting →
        sendCurrentState (some round) =
          GameStateMsg.bettingPhase round.id round.serverSeedHash round.clientSeed round.nonce)
  ∧ (∀ (r1 r2 : Round),
        r1.status = r2.status →
        (r1.status = RoundStatus.pending ∨ r1.status = RoundStatus.betting) →
        r1.id = r2.id → r1.serverSeedHash = r2.serverSeedHash →
        r1.clientSeed = r2.clientSeed → r1.nonce = r2.nonce →
        r1.bets = r2.bets → r1.startTime = r2.startTime →
        sendCurrentState (some r1) = sendCurrentState (some r2)
          ∧ FlipEngine.getCurrentRound (some r1) = FlipEngine.getCurrentRound (some r2)) := by
  refine ⟨?_, ?_, ?_, ?_⟩
  · intro round v hst hv
    simp only [FlipEngine.getCurrentRound, Option.some.injEq] at hv
    rcases hst with h | h <;>
      simp [← hv, h]
  · intro round v hst hv
    simp only [FlipEngine.getCurrentRound, Option.some.injEq] at hv
    rcases hst with h | h <;>
      simp [← hv, h]
  · intro round hst
    simp [sendCurrentState, FlipEngine.getCurrentRound, hst]
  · intro r1 r2 hst hpb hid hhash hcs hn hb hstart
    constructor
    · rcases hpb with h | h
      · have h2 : r2.status = RoundStatus.pending := by rw [← hst]; exact h
        simp [sendCurrentState, FlipEngine.getCurrentRound, h, h2]
      · have h2 : r2.status = RoundStatus.betting := by rw [← hst]; exact h
        simp [sendCurrentState, FlipEngine.getCurrentRound, h, h2, hid, hhash, hcs, hn]
    · rcases hpb with h | h
      · have h2 : r2.status = RoundStatus.pending := by rw [← hst]; exact h
        simp [FlipEngine.getCurrentRound, h, h2, hid, hhash, hcs, hn, hb, hstart]
      · have h2 : r2.status = RoundStatus.betting := by rw [← hst]; exact h
        simp [FlipEngine.getCurrentRound, h, h2, hid, hhash, hcs, hn, hb, hstart]

/-- Witness for C6: a concrete betting-phase round and a copy of it with a
different computed result produce identical snapshots. -/
theorem C6_result_concealed_before_reveal_witness :
    (witnessRound.status = RoundStatus.betting)
  ∧ (sendCurrentState (some witnessRound) =
      sendCurrentState (some { witnessRound with result := "TAILS" })) := by
  refine ⟨rfl, ?_⟩
  exact (C6_result_concealed_before_reveal.2.2.2 witnessRound
    { witnessRound with result := "TAILS" } rfl (Or.inr rfl) rfl rfl rfl rfl rfl rfl).1

/-! ## Sessions (sessionService.js) -/

structure Session where
  sessionId : String
  playerId : String
  currency : String
  token : String
  callbackBaseUrl : String
  createdAt : Nat
  expiresAt : Nat
  balance : ℚ
  isConnected : Bool
  gameSocketId : Option String
  controlsSocketId : Option String
deriving DecidableEq, Repr

/-! ## Bet coordination (betService.placeBet)

The platform debit performed by `callbackService.placeBet` is modelled by
`debitFn`, mapping the debited amount to the platform's structured result; the
amounts passed to it are recorded in `debitRequests`.  Because the debit
awaits the network, the engine state can change between the pre-debit checks
(`preEngine`) and the `addBet` registration (`postEngine`). -/

structure CbResult where
  success : Bool
  transactionId : Option Nat
  newBalance : Option ℚ
  code : Option String
  message : Option String
deriving DecidableEq, Repr

structure RollbackRequest where
  roundId : String
  playerId : String
  sessionId : String
  amount : ℚ
  currency : String
  originalTransactionId : Option Nat
  reason : String
deriving DecidableEq, Repr

inductive PlaceBetErr
  | invalidSession
  | amountBelowMin
  | amountAboveMax
  | invalidChoice
  | alreadyPlacedBet
  | noActiveRound
  | bettingClosed
  | platformRejected (message : Option String) (code : Option String)
  | registrationFailed (e : BetError)
deriving DecidableEq, Repr

structure PlaceBetOk where
  amount : ℚ
  choice : String
  roundId : String
  transactionId : Option Nat
deriving DecidableEq, Repr

structure PlaceBetOutcome where
  result : Except PlaceBetErr PlaceBetOk
  debitRequests : List ℚ
  rollbackRequests : List RollbackRequest
  engine : Option Round
deriving Repr

def roundTo2 (a : ℚ) : ℚ := ((⌊a * 100 + 1 / 2⌋ : ℤ) : ℚ) / 100

def FlipEngine.getPlayerBet (cur : Option Round) (playerId : String) : Option Bet :=
  match cur with
  | none => none
  | some round => round.bets.lookup playerId

def BetService.placeBet (session : Option Session) (amount : ℚ) (choice : String)
    (preEngine : Option Round) (debitFn : ℚ → CbResult) (postEngine : Option Round)
    (now : Nat) : PlaceBetOutcome :=
  match session with
  | none =>
    { result := Except.error PlaceBetErr.invalidSession, debitRequests := [],
      rollbackRequests := [], engine := postEngine }
  | some s =>
    if amount < MIN_BET then
      { result := Except.error PlaceBetErr.amountBelowMin, debitRequests := [],
        rollbackRequests := [], engine := postEngine }
    else if amount > MAX_BET then
      { result := Except.error PlaceBetErr.amountAboveMax, debitRequests := [],
        rollbackRequests := [], engine := postEngine }
    else if choice ≠ "HEADS" ∧ choice ≠ "TAILS" ∧ choice ≠ "EDGE" then
      { result := Except.error PlaceBetErr.invalidChoice, debitRequests := [],
        rollbackRequests := [], engine := postEngine }
    else
      match FlipEngine.getPlayerBet preEngine s.playerId with
      | some _ =>
        { result := Except.error PlaceBetErr.alreadyPlacedBet, debitRequests := [],
          rollbackRequests := [], engine := postEngine }
      | none =>
        match FlipEngine.getCurrentRound preEngine with
        | none =>
          { result := Except.error PlaceBetErr.noActiveRound, debitRequests := [],
            rollbackRequests := [], engine := postEngine }
        | some round =>
          if round.status ≠ RoundStatus.betting then
            { result := Except.error PlaceBetErr.bettingClosed, debitRequests := [],
              rollbackRequests := [], engine := postEngine }
          else
            let roundedAmount := roundTo2 amount
            let callbackResult := debitFn roundedAmount
            if callbackResult.success = false then
              { result := Except.error
                  (PlaceBetErr.platformRejected callbackResult.message callbackResult.code),
                debitRequests := [roundedAmount], rollbackRequests := [],
                engine := postEngine }
            else
              match FlipEngine.addBet postEngine s.playerId roundedAmount choice
                  s.sessionId now with
              | (engine2, Except.ok _bet) =>
                { result := Except.ok
                    { amount := roundedAmount, choice := choice, roundId := round.id,
                      transactionId := callbackResult.transactionId },
                  debitRequests := [roundedAmount], rollbackRequests := [],
                  engine := engine2 }
              | (engine2, Except.error e) =>
                { result := Except.error (PlaceBetErr.registrationFailed e),
                  debitRequests := [roundedAmount],
                  rollbackRequests :=
                    [{ roundId := round.id, playerId := s.playerId,
                       sessionId := s.sessionId, amount := roundedAmount,
                       currency := s.currency,
                       originalTransactionId := callbackResult.transactionId,
                       reason := "REGISTRATION_FAILED" }],
                  engine := engine2 }

/-- C3: the debit precedes local acceptance with compensation on local
failure: when the platform debit fails, `placeBet` surfaces the rejection, no
ledger entry is created and no rollback is issued; when the debit succeeds
but `addBet` then throws, exactly one rollback referencing the debit's
transaction id with reason REGISTRATION_FAILED is issued, and the original
registration error is surfaced. -/
theorem C3_placeBet_debit_before_accept :
    ∀ (s : Session) (amount : ℚ) (choice : String) (preEngine : Option Round)
      (debitFn : ℚ → CbResult) (postEngine : Option Round) (now : Nat)
      (rv : RoundView),
      ¬ amount < MIN_BET → ¬ amount > MAX_BET →
      ¬(choice ≠ "HEADS" ∧ choice ≠ "TAILS" ∧ choice ≠ "EDGE") →
      FlipEngine.getPlayerBet preEngine s.playerId = none →
      FlipEngine.getCurrentRound preEngine = some rv →
      rv.status = RoundStatus.betting →
      (((debitFn (roundTo2 amount)).success = false →
        BetService.placeBet (some s) amount choice preEngine debitFn postEngine now =
          { result := Except.error (PlaceBetErr.platformRejected
              (debitFn (roundTo2 amount)).message (debitFn (roundTo2 amount)).code),
            debitRequests := [roundTo2 amount], rollbackRequests := [],
            engine := postEngine })
      ∧ ((debitFn (roundTo2 amount)).success = true →
        ∀ (engine2 : Option Round) (e : BetError),
          FlipEngine.addBet postEngine s.playerId (roundTo2 amount) choice
              s.sessionId now = (engine2, Except.error e) →
          BetService.placeBet (some s) amount choice preEngine debitFn postEngine now =
            { result := Except.error (PlaceBetErr.registrationFailed e),
              debitRequests := [roundTo2 amount],
              rollbackRequests :=
                [{ roundId := rv.id, playerId := s.playerId, sessionId := s.sessionId,
                   amount := roundTo2 amount, currency := s.currency,
                   originalTransactionId := (debitFn (roundTo2 amount)).transactionId,
                   reason := "REGISTRATION_FAILED" }],
              engine := engine2 })) := by
  intro s amount choice preEngine debitFn postEngine now rv hmin hmax hch hpb hcr hst
  have hne : ¬ rv.status ≠ RoundStatus.betting := by simp [hst]
  constructor
  · intro hfail
    simp only [BetService.placeBet, if_neg hmin, if_neg hmax, if_neg hch, hpb, hcr,
      if_neg hne, if_pos hfail]
  · intro hok engine2 e haddbet
    have hnotfail : ¬ (debitFn (roundTo2 amount)).success = false := by simp [hok]
    simp only [BetService.placeBet, if_neg hmin, if_neg hmax, if_neg hch, hpb, hcr,
      if_neg hne, if_neg hnotfail, haddbet]

def witnessSession : Session :=
  { sessionId := "s1", playerId := "p1", currency := "USD", token := "t",
    callbackBaseUrl := "http://cb", createdAt := 0, expiresAt := 10,
    balance := 0, isConnected := true, gameSocketId := none, controlsSocketId := none }

def witnessView : RoundView :=
  { id := "F-1-0", status := RoundStatus.betting, result := none,
    serverSeedHash := witnessSha "a", clientSeed := "c", nonce := 0,
    betsCount := 0, startTime := none }

def witnessDebitFail : ℚ → CbResult :=
  fun _ => { success := false, transactionId := none, newBalance := none,
             code := some "INSUFFICIENT_FUNDS", message := some "no funds" }

def witnessDebitOk : ℚ → CbResult :=
  fun _ => { success := true, transactionId := some 77, newBalance := some 90,
             code := none, message := none }

/-- Witness for C3: concrete session, open round at check time, closed round
at registration time, and both a failing and a succeeding platform debit. -/
theorem C3_placeBet_debit_before_accept_witness :
    (¬ (10 : ℚ) < MIN_BET) ∧ (¬ (10 : ℚ) > MAX_BET)
  ∧ ((BetService.placeBet (some witnessSession) 10 "HEADS" (some witnessRound)
        witnessDebitFail (some witnessRound) 9).rollbackRequests = [])
  ∧ ((BetService.placeBet (some witnessSession) 10 "HEADS" (some witnessRound)
        witnessDebitOk (some { witnessRound with status := RoundStatus.revealing })
        9).rollbackRequests =
      [{ roundId := "F-1-0", playerId := "p1", sessionId := "s1",
         amount := roundTo2 10, currency := "USD", originalTransactionId := some 77,
         reason := "REGISTRATION_FAILED" }]) := by
  refine ⟨by norm_num [MIN_BET], by norm_num [MAX_BET], ?_, ?_⟩
  · have h := (C3_placeBet_debit_before_accept witnessSession
      10 "HEADS" (some witnessRound) witnessDebitFail (some witnessRound) 9
      witnessView
      (by norm_num [MIN_BET]) (by norm_num [MAX_BET]) (by simp) rfl rfl rfl).1 rfl
    rw [h]
  · have h := (C3_placeBet_debit_before_accept witnessSession
      10 "HEADS" (some witnessRound) witnessDebitOk
      (some { witnessRound with status := RoundStatus.revealing }) 9
      witnessView
      (by norm_num [MIN_BET]) (by norm_num [MAX_BET]) (by simp) rfl rfl rfl).2 rfl
      (some { witnessRound with status := RoundStatus.revealing })
      BetError.bettingClosed rfl
    rw [h]
    rfl

/-- C10: `placeBet` rounds the submitted amount to two decimals with
round-to-nearest (`⌊a * 100 + 1/2⌋ / 100`, the embedding of
`Math.round(amount*100)/100`), and this rounded value is what is sent in the
platform debit, recorded in the round's ledger entry, and returned in the
result — and round-to-nearest differs from flooring. -/
theorem C10_placeBet_rounds_amount :
    (∀ (s : Session) (amount : ℚ) (choice : String) (preEngine : Option Round)
      (debitFn : ℚ → CbResult) (postEngine : Option Round) (now : Nat)
      (rv : RoundView),
      ¬ amount < MIN_BET → ¬ amount > MAX_BET →
      ¬(choice ≠ "HEADS" ∧ choice ≠ "TAILS" ∧ choice ≠ "EDGE") →
      FlipEngine.getPlayerBet preEngine s.playerId = none →
      FlipEngine.getCurrentRound preEngine = some rv →
      rv.status = RoundStatus.betting →
      (debitFn (roundTo2 amount)).success = true →
      ∀ (engine2 : Option Round) (bet : Bet),
        FlipEngine.addBet postEngine s.playerId (roundTo2 amount) choice
            s.sessionId now = (engine2, Except.ok bet) →
        (BetService.placeBet (some s) amount choice preEngine debitFn postEngine
            now).debitRequests = [roundTo2 amount]
        ∧ (BetService.placeBet (some s) amount choice preEngine debitFn postEngine
            now).result = Except.ok
              { amount := roundTo2 amount, choice := choice, roundId := rv.id,
                transactionId := (debitFn (roundTo2 amount)).transactionId }
        ∧ bet.amount = roundTo2 amount
        ∧ (∀ postRound : Round, postEngine = some postRound →
            ∃ r2 : Round, engine2 = some r2
              ∧ r2.bets = postRound.bets ++ [(s.playerId, bet)]))
  ∧ (roundTo2 (10019 / 1000) = 1002 / 100)
  ∧ (roundTo2 (10019 / 1000) ≠ ((⌊(10019 : ℚ) / 1000 * 100⌋ : ℤ) : ℚ) / 100) := by
  refine ⟨?_, ?_, ?_⟩
  · intro s amount choice preEngine debitFn postEngine now rv hmin hmax hch hpb hcr hst
      hok engine2 bet haddbet
    have hne : ¬ rv.status ≠ RoundStatus.betting := by simp [hst]
    have hnotfail : ¬ (debitFn (roundTo2 amount)).success = false := by simp [hok]
    have hplace : BetService.placeBet (some s) amount choice preEngine debitFn postEngine
        now = { result := Except.ok
                  { amount := roundTo2 amount, choice := choice, roundId := rv.id,
                    transactionId := (debitFn (roundTo2 amount)).transactionId },
                debitRequests := [roundTo2 amount], rollbackRequests := [],
                engine := engine2 } := by
      simp only [BetService.placeBet, if_neg hmin, if_neg hmax, if_neg hch, hpb, hcr,
        if_neg hne, if_neg hnotfail, haddbet]
    refine ⟨by rw [hplace], by rw [hplace], ?_, ?_⟩
    · cases postEngine with
      | none => simp [FlipEngine.addBet] at haddbet
      | some postRound =>
        obtain ⟨_, _, _, hbet, _⟩ := addBet_ok_inv haddbet
        rw [hbet]
    · intro postRound hpost
      subst hpost
      obtain ⟨_, _, _, _, heng⟩ := addBet_ok_inv haddbet
      exact ⟨{ postRound with bets := postRound.bets ++ [(s.playerId, bet)] }, heng, by simp⟩
  · show ((⌊(10019 : ℚ) / 1000 * 100 + 1 / 2⌋ : ℤ) : ℚ) / 100 = 1002 / 100
    rw [show (⌊(10019 : ℚ) / 1000 * 100 + 1 / 2⌋ : ℤ) = 1002 by
      rw [Int.floor_eq_iff] <;> norm_num]
    norm_num
  · show ¬ ((⌊(10019 : ℚ) / 1000 * 100 + 1 / 2⌋ : ℤ) : ℚ) / 100 =
        ((⌊(10019 : ℚ) / 1000 * 100⌋ : ℤ) : ℚ) / 100
    rw [show (⌊(10019 : ℚ) / 1000 * 100 + 1 / 2⌋ : ℤ) = 1002 by
      rw [Int.floor_eq_iff] <;> norm_num]
    rw [show (⌊(10019 : ℚ) / 1000 * 100⌋ : ℤ) = 1001 by
      rw [Int.floor_eq_iff] <;> norm_num]
    norm_num

def witnessBet : Bet :=
  { playerId := "p1", sessionId := "s1", amount := roundTo2 10, choice := "HEADS",
    placedAt := 9 }

/-- Witness for C10: a concrete successful bet placement. -/
theorem C10_placeBet_rounds_amount_witness :
    (FlipEngine.addBet (some witnessRound) "p1" (roundTo2 10) "HEADS" "s1" 9 =
      (some { witnessRound with bets := witnessRound.bets ++ [("p1", witnessBet)] },
       Except.ok witnessBet))
  ∧ ((witnessDebitOk (roundTo2 10)).success = true)
  ∧ ((BetService.placeBet (some witnessSession) 10 "HEADS" (some witnessRound)
        witnessDebitOk (some witnessRound) 9).debitRequests = [roundTo2 10]) := by
  have haddbet : FlipEngine.addBet (some witnessRound) "p1" (roundTo2 10) "HEADS" "s1" 9 =
      (some { witnessRound with bets := witnessRound.bets ++ [("p1", witnessBet)] },
       Except.ok witnessBet) := rfl
  refine ⟨haddbet, rfl, ?_⟩
  exact (C10_placeBet_rounds_amount.1 witnessSession 10 "HEADS" (some witnessRound)
    witnessDebitOk (some witnessRound) 9 witnessView (by norm_num [MIN_BET])
    (by norm_num [MAX_BET]) (by simp) rfl rfl rfl rfl _ _ haddbet).1

/-! ## Platform callbacks with retry (callbackService.js)

`outcomes k` is the result of the k-th HTTP attempt (1-based): an exception
(network failure / timeout) or the platform's parsed JSON response together
with the HTTP ok flag.  `requestOnce` performs one attempt of `makeRequest`'s
try block, turning a non-ok HTTP response into a thrown error as the source
does; the recursion mirrors the source's `attempt < RETRY_ATTEMPTS` retry
guard and `RETRY_DELAY_MS * attempt` backoff, whose waits are returned as a
list of delays. -/

structure PlatformResponse where
  ok : Bool
  status : Option String
  transactionId : Option Nat
  newBalance : Option ℚ
  balance : Option ℚ
  currency : Option String
  code : Option String
  message : Option String
deriving DecidableEq, Repr

def requestOnce (outcomes : Nat → Except String PlatformResponse) (attempt : Nat) :
    Except String PlatformResponse :=
  match outcomes attempt with
  | Except.error e => Except.error e
  | Except.ok resp =>
    if resp.ok = false then
      Except.error ("HTTP error: " ++ resp.message.getD "Unknown error")
    else Except.ok resp

def CallbackService.makeRequest (outcomes : Nat → Except String PlatformResponse)
    (attempt : Nat) : Except String PlatformResponse × List Nat :=
  match requestOnce outcomes attempt with
  | Except.ok r => (Except.ok r, [])
  | Except.error e =>
    if _h : attempt < RETRY_ATTEMPTS then
      let r2 := CallbackService.makeRequest outcomes (attempt + 1)
      (r2.1, RETRY_DELAY_MS * attempt :: r2.2)
    else (Except.error e, [])
termination_by RETRY_ATTEMPTS - attempt

def CallbackService.placeBetCb (outcomes : Nat → Except String PlatformResponse) :
    CbResult × List Nat :=
  match CallbackService.makeRequest outcomes 1 with
  | (Except.ok resp, ds) =>
    match resp.transactionId with
    | some tx =>
      ({ success := true, transactionId := some tx, newBalance := resp.newBalance,
         code := none, message := none }, ds)
    | none =>
      ({ success := false, transactionId := none, newBalance := none,
         code := resp.code, message := resp.message }, ds)
  | (Except.error e, ds) =>
    ({ success := false, transactionId := none, newBalance := none,
       code := some "CALLBACK_FAILED", message := some e }, ds)

def CallbackService.creditWinCb (outcomes : Nat → Except String PlatformResponse) :
    CbResult × List Nat :=
  match CallbackService.makeRequest outcomes 1 with
  | (Except.ok resp, ds) =>
    match resp.transactionId with
    | some tx =>
      ({ success := true, transactionId := some tx, newBalance := resp.newBalance,
         code := none, message := none }, ds)
    | none =>
      ({ success := false, transactionId := none, newBalance := none,
         code := resp.code, message := resp.message }, ds)
  | (Except.error e, ds) =>
    ({ success := false, transactionId := none, newBalance := none,
       code := some "CALLBACK_FAILED", message := some e }, ds)

def CallbackService.rollbackCb (outcomes : Nat → Except String PlatformResponse) :
    CbResult × List Nat :=
  match CallbackService.makeRequest outcomes 1 with
  | (Except.ok resp, ds) =>
    if resp.status = some "OK" then
      ({ success := true, transactionId := resp.transactionId,
         newBalance := resp.newBalance, code := none, message := none }, ds)
    else
      ({ success := false, transactionId := none, newBalance := none,
         code := resp.code, message := resp.message }, ds)
  | (Except.error e, ds) =>
    ({ success := false, transactionId := none, newBalance := none,
       code := some "CALLBACK_FAILED", message := some e }, ds)

structure BalanceResult where
  success : Bool
  balance : Option ℚ
  currency : Option String
  code : Option String
  message : Option String
deriving DecidableEq, Repr

def CallbackService.getBalanceCb (outcomes : Nat → Except String PlatformResponse) :
    BalanceResult × List Nat :=
  match CallbackService.makeRequest outcomes 1 with
  | (Except.ok resp, ds) =>
    ({ success := true, balance := resp.balance, currency := resp.currency,
       code := none, message := none }, ds)
  | (Except.error e, ds) =>
    ({ success := false, balance := none, currency := none,
       code := some "CALLBACK_FAILED", message := some e }, ds)

lemma makeRequest_unfold (outcomes : Nat → Except String PlatformResponse)
    (attempt : Nat) :
    CallbackService.makeRequest outcomes attempt =
      match requestOnce outcomes attempt with
      | Except.ok r => (Except.ok r, [])
      | Except.error e =>
        if attempt < RETRY_ATTEMPTS then
          ((CallbackService.makeRequest outcomes (attempt + 1)).1,
            RETRY_DELAY_MS * attempt ::
              (CallbackService.makeRequest outcomes (attempt + 1)).2)
        else (Except.error e, []) := by
  rw [CallbackService.makeRequest]
  cases requestOnce outcomes attempt with
  | ok r => rfl
  | error e => simp

lemma makeRequest_exhausted (outcomes : Nat → Except String PlatformResponse)
    (h : ∀ k, 1 ≤ k → k ≤ RETRY_ATTEMPTS → ∃ msg, requestOnce outcomes k = Except.error msg) :
    ∃ msg, CallbackService.makeRequest outcomes 1 =
      (Except.error msg, [RETRY_DELAY_MS * 1, RETRY_DELAY_MS * 2]) := by
  obtain ⟨e1, h1⟩ := h 1 (by omega) (by simp [RETRY_ATTEMPTS])
  obtain ⟨e2, h2⟩ := h 2 (by omega) (by simp [RETRY_ATTEMPTS])
  obtain ⟨e3, h3⟩ := h 3 (by omega) (by simp [RETRY_ATTEMPTS])
  have u3 : CallbackService.makeRequest outcomes 3 = (Except.error e3, []) := by
    rw [makeRequest_unfold, h3]
    simp [RETRY_ATTEMPTS]
  have u2 : CallbackService.makeRequest outcomes 2 =
      (Except.error e3, [RETRY_DELAY_MS * 2]) := by
    rw [makeRequest_unfold, h2]
    simp only [RETRY_ATTEMPTS]
    rw [if_pos (by omega), u3]
  have u1 : CallbackService.makeRequest outcomes 1 =
      (Except.error e3, [RETRY_DELAY_MS * 1, RETRY_DELAY_MS * 2]) := by
    rw [makeRequest_unfold, h1]
    simp only [RETRY_ATTEMPTS]
    rw [if_pos (by omega), u2]
  exact ⟨e3, u1⟩

/-- C7: every settlement operation retries a failed platform request up to the
fixed total of RETRY_ATTEMPTS = 3 attempts with linearly increasing waits
`RETRY_DELAY_MS * attempt` between them, and after exhausting retries each of
the four operations (debit, win credit, rollback refund, balance query)
returns a structured `success = false` result carrying code CALLBACK_FAILED
instead of an escaping exception. -/
theorem C7_callback_retry_policy :
    (∀ outcomes : Nat → Except String PlatformResponse,
      (CallbackService.makeRequest outcomes 1).2 ∈
        ([[], [RETRY_DELAY_MS * 1], [RETRY_DELAY_MS * 1, RETRY_DELAY_MS * 2]] :
          List (List Nat)))
  ∧ (∀ (outcomes : Nat → Except String PlatformResponse) (r : PlatformResponse),
      requestOnce outcomes 1 = Except.ok r →
      CallbackService.makeRequest outcomes 1 = (Except.ok r, []))
  ∧ (∀ outcomes : Nat → Except String PlatformResponse,
      (∀ k, 1 ≤ k → k ≤ RETRY_ATTEMPTS →
         ∃ msg, requestOnce outcomes k = Except.error msg) →
      (∃ msg, CallbackService.makeRequest outcomes 1 =
         (Except.error msg, [RETRY_DELAY_MS * 1, RETRY_DELAY_MS * 2]))
      ∧ ((CallbackService.placeBetCb outcomes).1.success = false
        ∧ (CallbackService.placeBetCb outcomes).1.code = some "CALLBACK_FAILED"
        ∧ (CallbackService.placeBetCb outcomes).2 =
            [RETRY_DELAY_MS * 1, RETRY_DELAY_MS * 2])
      ∧ ((CallbackService.creditWinCb outcomes).1.success = false
        ∧ (CallbackService.creditWinCb outcomes).1.code = some "CALLBACK_FAILED"
        ∧ (CallbackService.creditWinCb outcomes).2 =
            [RETRY_DELAY_MS * 1, RETRY_DELAY_MS * 2])
      ∧ ((CallbackService.rollbackCb outcomes).1.success = false
        ∧ (CallbackService.rollbackCb outcomes).1.code = some "CALLBACK_FAILED"
        ∧ (CallbackService.rollbackCb outcomes).2 =
            [RETRY_DELAY_MS * 1, RETRY_DELAY_MS * 2])
      ∧ ((CallbackService.getBalanceCb outcomes).1.success = false
        ∧ (CallbackService.getBalanceCb outcomes).1.code = some "CALLBACK_FAILED"
        ∧ (CallbackService.getBalanceCb outcomes).2 =
            [RETRY_DELAY_MS * 1, RETRY_DELAY_MS * 2])) := by
  refine ⟨?_, ?_, ?_⟩
  · intro outcomes
    rw [makeRequest_unfold]
    cases h1 : requestOnce outcomes 1 with
    | ok r => simp
    | error e1 =>
      simp only [RETRY_ATTEMPTS]
      rw [if_pos (by omega)]
      rw [makeRequest_unfold]
      cases h2 : requestOnce outcomes 2 with
      | ok r => simp
      | error e2 =>
        simp only [RETRY_ATTEMPTS]
        rw [if_pos (by omega)]
        rw [makeRequest_unfold]
        cases h3 : requestOnce outcomes 3 with
        | ok r => simp
        | error e3 =>
          simp only [RETRY_ATTEMPTS]
          rw [if_neg (by omega)]
          simp
  · intro outcomes r h
    rw [makeRequest_unfold, h]
  · intro outcomes h
    obtain ⟨msg, hmr⟩ := makeRequest_exhausted outcomes h
    refine ⟨⟨msg, hmr⟩, ?_, ?_, ?_, ?_⟩ <;>
      simp [CallbackService.placeBetCb, CallbackService.creditWinCb,
        CallbackService.rollbackCb, CallbackService.getBalanceCb, hmr]

/-- Witness for C7: retries exhausted on an always-failing network. -/
theorem C7_callback_retry_policy_witness :
    (∀ k, 1 ≤ k → k ≤ RETRY_ATTEMPTS →
      ∃ msg, requestOnce (fun _ => Except.error "timeout") k = Except.error msg)
  ∧ ((CallbackService.placeBetCb (fun _ => Except.error "timeout")).1.success = false) := by
  have hfail : ∀ k, 1 ≤ k → k ≤ RETRY_ATTEMPTS →
      ∃ msg, requestOnce (fun _ => Except.error "timeout") k = Except.error msg :=
    fun k _ _ => ⟨"timeout", rfl⟩
  exact ⟨hfail,
    ((C7_callback_retry_policy.2.2 (fun _ => Except.error "timeout") hfail).2.1).1⟩

/-! ## Nonce behaviour across seed-chain operations (seeds.js) -/

lemma advanceToNextSeed_no_regen (sha : String → String) (s0 cs0 : String)
    (st : SeedManagerState) (h : st.currentIndex + 1 < st.seedChain.length) :
    SeedManager.advanceToNextSeed sha s0 cs0 st =
      { st with currentIndex := st.currentIndex + 1, nonce := st.nonce + 1 } := by
  rw [SeedManager.advanceToNextSeed]
  simp only
  rw [if_neg (by simp; omega)]

lemma advanceToNextSeed_regen (sha : String → String) (s0 cs0 : String)
    (st : SeedManagerState) (h : st.currentIndex + 1 ≥ st.seedChain.length) :
    SeedManager.advanceToNextSeed sha s0 cs0 st =
      SeedManager.initializeChain sha s0 cs0
        { st with currentIndex := st.currentIndex + 1, nonce := st.nonce + 1 } := by
  rw [SeedManager.advanceToNextSeed]
  simp only
  rw [if_pos (by simp; omega)]

lemma initialize_nonce (sha : String → String) (s0 cs0 : String) (st : SeedManagerState) :
    (SeedManager.initializeChain sha s0 cs0 st).nonce = 0 := rfl

lemma advance_iterate_in_chain (sha : String → String) (s0 cs0 : String) :
    ∀ k : Nat, k ≤ 9999 →
      ((SeedManager.advanceToNextSeed sha s0 cs0)^[k]
          (SeedManager.initializeChain sha s0 cs0 SeedManager.new)).nonce = k
      ∧ ((SeedManager.advanceToNextSeed sha s0 cs0)^[k]
          (SeedManager.initializeChain sha s0 cs0 SeedManager.new)).currentIndex = k
      ∧ ((SeedManager.advanceToNextSeed sha s0 cs0)^[k]
          (SeedManager.initializeChain sha s0 cs0 SeedManager.new)).seedChain =
        (SeedManager.initializeChain sha s0 cs0 SeedManager.new).seedChain := by
  intro k
  induction k with
  | zero => intro _; exact ⟨rfl, rfl, rfl⟩
  | succ k ih =>
    intro hk
    obtain ⟨hn, hi, hc⟩ := ih (by omega)
    have hlen : (SeedManager.initializeChain sha s0 cs0 SeedManager.new).seedChain.length
        = 10000 := by
      rw [initialize_seedChain_length]
      rfl
    rw [Function.iterate_succ_apply']
    have hregen : ((SeedManager.advanceToNextSeed sha s0 cs0)^[k]
        (SeedManager.initializeChain sha s0 cs0 SeedManager.new)).currentIndex + 1 <
        ((SeedManager.advanceToNextSeed sha s0 cs0)^[k]
          (SeedManager.initializeChain sha s0 cs0 SeedManager.new)).seedChain.length := by
      rw [hi, hc, hlen]
      omega
    rw [advanceToNextSeed_no_regen sha s0 cs0 _ hregen]
    exact ⟨by simp [hn], by simp [hi], by simp [hc]⟩

/-- C8 counterexample: starting from a freshly initialized manager with the
chain length 10000 of the source, 9999 advances bring the nonce to 9999, and
the 10000-th advance triggers the chain regeneration, which resets the nonce
to 0 — the nonce decreases. -/
theorem C8_nonce_decreases_on_regeneration :
    ((SeedManager.advanceToNextSeed witnessSha "a" "c")^[10000]
        (SeedManager.initializeChain witnessSha "a" "c" SeedManager.new)).nonce
      < ((SeedManager.advanceToNextSeed witnessSha "a" "c")^[9999]
        (SeedManager.initializeChain witnessSha "a" "c" SeedManager.new)).nonce := by
  obtain ⟨hn, hi, hc⟩ := advance_iterate_in_chain witnessSha "a" "c" 9999 (by omega)
  have hlen : (SeedManager.initializeChain witnessSha "a" "c" SeedManager.new).seedChain.length
      = 10000 := by
    rw [initialize_seedChain_length]
    rfl
  have h10000 : ((SeedManager.advanceToNextSeed witnessSha "a" "c")^[10000]
      (SeedManager.initializeChain witnessSha "a" "c" SeedManager.new)).nonce = 0 := by
    rw [show (10000 : Nat) = 9999 + 1 from rfl, Function.iterate_succ_apply']
    rw [advanceToNextSeed_regen witnessSha "a" "c" _ (by rw [hi, hc, hlen])]
    rw [initialize_nonce]
  rw [h10000, hn]
  omega

/-- C8 (amended): the nonce increases by exactly 1 on every
`advanceToNextSeed` that does not exhaust the chain and is untouched by
`getCurrentServerSeed` while the chain is not exhausted — so it never
decreases between regenerations (within one chain it equals the number of
advances) — but the regeneration triggered on chain exhaustion resets it
to 0. -/
theorem C8_nonce_monotone_between_regenerations :
    (∀ (sha : String → String) (s0 cs0 : String) (st : SeedManagerState),
      st.currentIndex + 1 < st.seedChain.length →
      (SeedManager.advanceToNextSeed sha s0 cs0 st).nonce = st.nonce + 1)
  ∧ (∀ (sha : String → String) (s0 cs0 : String) (st : SeedManagerState),
      st.currentIndex < st.seedChain.length →
      ((SeedManager.getCurrentServerSeed sha s0 cs0 st).2).nonce = st.nonce)
  ∧ (∀ (sha : String → String) (s0 cs0 : String) (st : SeedManagerState),
      st.currentIndex + 1 ≥ st.seedChain.length →
      (SeedManager.advanceToNextSeed sha s0 cs0 st).nonce = 0)
  ∧ (∀ (sha : String → String) (s0 cs0 : String) (k : Nat), k ≤ 9999 →
      ((SeedManager.advanceToNextSeed sha s0 cs0)^[k]
        (SeedManager.initializeChain sha s0 cs0 SeedManager.new)).nonce = k) := by
  refine ⟨?_, ?_, ?_, ?_⟩
  · intro sha s0 cs0 st h
    rw [advanceToNextSeed_no_regen sha s0 cs0 st h]
  · intro sha s0 cs0 st h
    rw [SeedManager.getCurrentServerSeed]
    simp only
    rw [if_neg (by omega)]
  · intro sha s0 cs0 st h
    rw [advanceToNextSeed_regen sha s0 cs0 st h, initialize_nonce]
  · intro sha s0 cs0 k hk
    exact (advance_iterate_in_chain sha s0 cs0 k hk).1

/-- Witness for the amended C8 at a concrete manager state. -/
theorem C8_nonce_monotone_between_regenerations_witness :
    ({ chainLength := 10000, currentIndex := 0, nonce := 5, seedChain := ["a", "b"],
       clientSeed := "c", initialHash := "a" } : SeedManagerState).currentIndex + 1 <
      ({ chainLength := 10000, currentIndex := 0, nonce := 5, seedChain := ["a", "b"],
         clientSeed := "c", initialHash := "a" } : SeedManagerState).seedChain.length
  ∧ (SeedManager.advanceToNextSeed witnessSha "a" "c"
      { chainLength := 10000, currentIndex := 0, nonce := 5, seedChain := ["a", "b"],
        clientSeed := "c", initialHash := "a" }).nonce =
    ({ chainLength := 10000, currentIndex := 0, nonce := 5, seedChain := ["a", "b"],
       clientSeed := "c", initialHash := "a" } : SeedManagerState).nonce + 1 := by
  refine ⟨by simp, ?_⟩
  exact C8_nonce_monotone_between_regenerations.1 witnessSha "a" "c"
    { chainLength := 10000, currentIndex := 0, nonce := 5, seedChain := ["a", "b"],
      clientSeed := "c", initialHash := "a" } (by simp)

/-! ## Session directory operations (sessionService.js)

JavaScript `Map.set` is `assocSet` (replace in place if the key exists,
append otherwise); `Map.delete` removes the key's entry. -/

structure SessionStore where
  sessions : List (String × Session)
  playerSessions : List (String × String)
deriving Repr

def assocSet {α : Type} (l : List (String × α)) (k : String) (v : α) :
    List (String × α) :=
  if (l.lookup k).isSome then
    l.map (fun p => if p.1 = k then (k, v) else p)
  else l ++ [(k, v)]

def SessionService.destroySession (st : SessionStore) (sessionId : String) :
    SessionStore :=
  match st.sessions.lookup sessionId with
  | none => st
  | some s =>
    { sessions := st.sessions.filter (fun p => p.1 ≠ sessionId),
      playerSessions := st.playerSessions.filter (fun p => p.1 ≠ s.playerId) }

def SessionService.getSession (st : SessionStore) (sessionId : String) (now : Nat) :
    Option Session × SessionStore :=
  match st.sessions.lookup sessionId with
  | none => (none, st)
  | some s =>
    if now > s.expiresAt then (none, SessionService.destroySession st sessionId)
    else (some s, st)

def SessionService.cleanupExpiredSessions (st : SessionStore) (now : Nat) :
    SessionStore :=
  let expired := (st.sessions.filter (fun p => now > p.2.expiresAt)).map Prod.fst
  expired.foldl SessionService.destroySession st

def SessionService.createSession (st : SessionStore) (newSessionId : String)
    (playerId currency token callbackBaseUrl : String) (now : Nat) :
    SessionStore × Session :=
  let st1 :=
    match st.playerSessions.lookup playerId with
    | some existingId =>
      { st with sessions := st.sessions.filter (fun p => p.1 ≠ existingId) }
    | none => st
  let session : Session :=
    { sessionId := newSessionId, playerId := playerId, currency := currency,
      token := token, callbackBaseUrl := callbackBaseUrl, createdAt := now,
      expiresAt := now + SESSION_EXPIRY_MS, balance := 0, isConnected := false,
      gameSocketId := none, controlsSocketId := none }
  ({ sessions := assocSet st1.sessions newSessionId session,
     playerSessions := assocSet st1.playerSessions playerId newSessionId }, session)

lemma lookup_filter_ne {α : Type} (l : List (String × α)) (k : String) :
    (l.filter (fun p => p.1 ≠ k)).lookup k = none := by
  rw [List.lookup_eq_none_iff]
  intro p hp
  have := (List.mem_filter.mp hp).2
  simp only [ne_eq, decide_not, Bool.not_eq_eq_eq_not, Bool.not_true,
    decide_eq_false_iff_not] at this
  simp [bne_iff_ne]
  intro hk
  exact this hk.symm

lemma lookup_filter_none {α : Type} (l : List (String × α)) (q : String × α → Bool)
    (k : String) (h : l.lookup k = none) : (l.filter q).lookup k = none := by
  rw [List.lookup_eq_none_iff] at h ⊢
  intro p hp
  exact h p (List.mem_filter.mp hp).1

lemma lookup_assocSet_of_fresh {α : Type} (l : List (String × α)) (k : String) (v : α)
    (h : l.lookup k = none) : (assocSet l k v).lookup k = some v := by
  rw [assocSet, if_neg (by simp [h])]
  rw [List.lookup_append, h]
  simp

lemma destroySession_sessions (st : SessionStore) (k : String) :
    (SessionService.destroySession st k).sessions =
      st.sessions.filter (fun p => p.1 ≠ k) := by
  rw [SessionService.destroySession]
  cases h : st.sessions.lookup k with
  | none =>
    simp only
    rw [List.lookup_eq_none_iff] at h
    rw [List.filter_eq_self.mpr]
    intro p hp
    have := h p hp
    simpa [bne_iff_ne, ne_comm] using this
  | some s => rfl

lemma eq_of_fst_eq_of_nodup_keys {α : Type} {l : List (String × α)}
    (h : (l.map Prod.fst).Nodup) {p q : String × α} (hp : p ∈ l) (hq : q ∈ l)
    (hfst : p.1 = q.1) : p = q := by
  induction l with
  | nil => cases hp
  | cons a t ih =>
    rw [List.map_cons, List.nodup_cons] at h
    rcases List.mem_cons.mp hp with hp1 | hp1 <;> rcases List.mem_cons.mp hq with hq1 | hq1
    · rw [hp1, hq1]
    · exfalso
      apply h.1
      rw [hp1] at hfst
      rw [hfst]
      exact List.mem_map_of_mem Prod.fst hq1
    · exfalso
      apply h.1
      rw [hq1] at hfst
      rw [← hfst]
      exact List.mem_map_of_mem Prod.fst hp1
    · exact ih h.2 hp1 hq1

lemma foldl_destroySession_sessions (ks : List String) :
    ∀ st : SessionStore, ((ks.foldl SessionService.destroySession st).sessions) =
      st.sessions.filter (fun p => decide (p.1 ∉ ks)) := by
  induction ks with
  | nil =>
    intro st
    simp [List.filter_eq_self]
  | cons k ks ih =>
    intro st
    rw [List.foldl_cons, ih, destroySession_sessions, List.filter_filter]
    apply List.filter_congr
    intro p _
    by_cases h1 : p.1 = k <;> by_cases h2 : p.1 ∈ ks <;>
      simp [h1, h2, List.mem_cons]

/-- C9: a session queried strictly after its expiry timestamp is treated as
not found — `getSession` returns none and deletes the entry; sessions created
by `createSession` expire exactly `SESSION_EXPIRY_MS = 24h` after creation, so
a query at TTL+1ms misses; and the periodic cleanup removes exactly the
sessions whose `expiresAt` has elapsed, keeping unexpired ones. -/
theorem C9_session_expiry :
    (SESSION_EXPIRY_MS = 86400000)
  ∧ (∀ (st : SessionStore) (sid : String) (now : Nat) (s : Session),
      st.sessions.lookup sid = some s → now > s.expiresAt →
      (SessionService.getSession st sid now).1 = none
      ∧ ((SessionService.getSession st sid now).2).sessions.lookup sid = none)
  ∧ (∀ (st : SessionStore) (sid : String) (now : Nat) (s : Session),
      st.sessions.lookup sid = some s → ¬ now > s.expiresAt →
      SessionService.getSession st sid now = (some s, st))
  ∧ (∀ (st : SessionStore) (newId pid cur tok cb : String) (now : Nat),
      st.sessions.lookup newId = none →
      ((SessionService.createSession st newId pid cur tok cb now).2).expiresAt =
        now + SESSION_EXPIRY_MS
      ∧ (SessionService.getSession
          (SessionService.createSession st newId pid cur tok cb now).1 newId
          (now + SESSION_EXPIRY_MS + 1)).1 = none
      ∧ ((SessionService.getSession
          (SessionService.createSession st newId pid cur tok cb now).1 newId
          (now + SESSION_EXPIRY_MS + 1)).2).sessions.lookup newId = none)
  ∧ (∀ (st : SessionStore) (now : Nat),
      (∀ p ∈ (SessionService.cleanupExpiredSessions st now).sessions,
        ¬ now > p.2.expiresAt)
      ∧ ((st.sessions.map Prod.fst).Nodup →
        ∀ p ∈ st.sessions, ¬ now > p.2.expiresAt →
          p ∈ (SessionService.cleanupExpiredSessions st now).sessions)) := by
  refine ⟨by norm_num [SESSION_EXPIRY_MS], ?_, ?_, ?_, ?_⟩
  · intro st sid now s hs hexp
    rw [SessionService.getSession, hs]
    simp only
    rw [if_pos hexp]
    exact ⟨rfl, by rw [destroySession_sessions]; exact lookup_filter_ne _ _⟩
  · intro st sid now s hs hexp
    rw [SessionService.getSession, hs]
    simp only
    rw [if_neg hexp]
  · intro st newId pid cur tok cb now hfresh
    refine ⟨rfl, ?_, ?_⟩
    · have hlk : ((SessionService.createSession st newId pid cur tok cb now).1).sessions.lookup
          newId = some (SessionService.createSession st newId pid cur tok cb now).2 := by
        rw [SessionService.createSession]
        simp only
        apply lookup_assocSet_of_fresh
        cases hp : st.playerSessions.lookup pid with
        | none => simpa using hfresh
        | some existingId =>
          simp only [hp]
          exact lookup_filter_none _ _ _ hfresh
      rw [SessionService.getSession, hlk]
      simp only
      rw [if_pos (by rw [show ((SessionService.createSession st newId pid cur tok cb
        now).2).expiresAt = now + SESSION_EXPIRY_MS from rfl]; omega)]
    · have hlk : ((SessionService.createSession st newId pid cur tok cb now).1).sessions.lookup
          newId = some (SessionService.createSession st newId pid cur tok cb now).2 := by
        rw [SessionService.createSession]
        simp only
        apply lookup_assocSet_of_fresh
        cases hp : st.playerSessions.lookup pid with
        | none => simpa using hfresh
        | some existingId =>
          simp only [hp]
          exact lookup_filter_none _ _ _ hfresh
      rw [SessionService.getSession, hlk]
      simp only
      rw [if_pos (by rw [show ((SessionService.createSession st newId pid cur tok cb
        now).2).expiresAt = now + SESSION_EXPIRY_MS from rfl]; omega)]
      rw [destroySession_sessions]
      exact lookup_filter_ne _ _
  · intro st now
    have hcl : (SessionService.cleanupExpiredSessions st now).sessions =
        st.sessions.filter (fun p => decide (p.1 ∉
          (st.sessions.filter (fun q => now > q.2.expiresAt)).map Prod.fst)) :=
      foldl_destroySession_sessions _ st
    constructor
    · intro p hp
      rw [hcl] at hp
      have hmem := List.mem_filter.mp hp
      intro hexp
      have hin : p.1 ∈ (st.sessions.filter (fun q => now > q.2.expiresAt)).map Prod.fst :=
        List.mem_map_of_mem Prod.fst (List.mem_filter.mpr ⟨hmem.1, by simpa using hexp⟩)
      have := hmem.2
      simp only [decide_eq_true_eq] at this
      exact this hin
    · intro hnd p hp hexp
      rw [hcl]
      apply List.mem_filter.mpr
      refine ⟨hp, ?_⟩
      simp only [decide_eq_true_eq]
      intro hin
      obtain ⟨q, hq, hq1⟩ := List.mem_map.mp hin
      have hqmem := List.mem_filter.mp hq
      have hpq : q = p := eq_of_fst_eq_of_nodup_keys hnd hqmem.1 hp hq1
      rw [hpq] at hqmem
      have := hqmem.2
      simp only [decide_eq_true_eq] at this
      exact hexp this

def witnessStore : SessionStore :=
  { sessions := [("sid1", { witnessSession with sessionId := "sid1", expiresAt := 100 })],
    playerSessions := [("p1", "sid1")] }

/-- Witness for C9: a concrete store with one session queried after expiry,
and a fresh creation queried at TTL+1ms. -/
theorem C9_session_expiry_witness :
    (witnessStore.sessions.lookup "sid1" =
      some { witnessSession with sessionId := "sid1", expiresAt := 100 })
  ∧ ((101 : Nat) > 100)
  ∧ ((SessionService.getSession witnessStore "sid1" 101).1 = none)
  ∧ ((SessionService.getSession
        (SessionService.createSession witnessStore "sid2" "p2" "USD" "t" "cb" 0).1
        "sid2" (0 + SESSION_EXPIRY_MS + 1)).1 = none) := by
  refine ⟨rfl, by omega, ?_, ?_⟩
  · exact (C9_session_expiry.2.1 witnessStore "sid1" 101
      { witnessSession with sessionId := "sid1", expiresAt := 100 } rfl (by decide)).1
  · exact (C9_session_expiry.2.2.2.1 witnessStore "sid2" "p2" "USD" "t" "cb" 0 rfl).2.1

end FlipGame
